import Mathlib

/-
Verification of the tabular pipeline in `src/analysis_to_sample.py`.

Embedding conventions: a pandas cell is `Val` (`none` models NaN / a missing
value), a DataFrame row is an association list from column name to cell, and a
DataFrame is the list of its rows.  Fallible pandas operations (column access
on a frame that lacks the column, Python `IndexError`) are modelled with
`Except String`.  Network access is modelled by a pure oracle
`fetch : String → Table` mapping a request URL to the parsed table of the
response body; the enumerator additionally records the list of URLs it
fetched, in order, so that statements about which queries are issued can be
made.
-/

/-- A pandas cell: `none` models NaN (a missing value). -/
abbrev Val := Option String

/-- A DataFrame row: association list from column name to cell. -/
abbrev Row := List (String × Val)

/-- A DataFrame: the list of its rows. -/
abbrev Table := List Row

/-- Column lookup in a row; `none` means the column is absent from the row
(as opposed to `some none`, which is a present NaN cell). -/
def getCol (r : Row) (c : String) : Option Val :=
  (r.find? (fun p => p.1 == c)).map (fun p => p.2)

/-- Cell access flattening an absent column into NaN; used where the pipeline
has already guaranteed that the column exists. -/
def getV (r : Row) (c : String) : Val :=
  (getCol r c).join

/-- Column access that raises like pandas `row[c]` / `df[c]` when the column
is absent. -/
def reqCol (r : Row) (c : String) : Except String Val :=
  match getCol r c with
  | some v => Except.ok v
  | none => Except.error ("KeyError: " ++ c)

/-- Pandas column assignment `df[c] = v`: overwrite the column if present,
otherwise append it. -/
def assign (c : String) (v : Val) (r : Row) : Row :=
  if (r.find? (fun p => p.1 == c)).isSome then
    r.map (fun p => if p.1 == c then (p.1, v) else p)
  else r ++ [(c, v)]

/-- Python `str(value)` on a cell: NaN prints as "nan". -/
def pyStr (v : Val) : String :=
  match v with
  | none => "nan"
  | some s => s

/-- Whitespace recognised by Python `str.strip` (ASCII range). -/
def isPySpace (c : Char) : Bool :=
  c == ' ' || c == '\t' || c == '\n' || c == '\r' || c == '\x0b' || c == '\x0c'

/-- Python `str.strip()` on a character list. -/
def trimChars (l : List Char) : List Char :=
  ((l.dropWhile isPySpace).reverse.dropWhile isPySpace).reverse

/-- Python `str.strip()` (also pandas `.str.strip()` on one value). -/
def pyStrip (s : String) : String :=
  String.mk (trimChars s.data)

/-- Accumulator-style worker for Python `str.split(sep)`. -/
def splitAux (sep : Char) (acc : List Char) : List Char → List (List Char)
  | [] => [acc.reverse]
  | c :: cs =>
    if c == sep then acc.reverse :: splitAux sep [] cs
    else splitAux sep (c :: acc) cs

/-- Python `s.split(sep)` for a single-character separator: always returns at
least one component; adjacent separators produce empty components. -/
def pySplit (sep : Char) (s : String) : List String :=
  (splitAux sep [] s.data).map (fun l => String.mk l)

/-- Test of `line.startswith("20")` from `fetch_data` (line 14 of the
source). -/
def startsWith20 (l : String) : Bool :=
  match l.data with
  | '2' :: '0' :: _ => true
  | _ => false

/-- Lines 13-14 of `fetch_data`: split the response body on newlines and keep
only the lines that do not start with "20"; the kept lines are re-joined and
handed to the delimiter parser. -/
def fetch_data_lines (body : String) : List String :=
  (pySplit '\n' body).filter (fun l => !(startsWith20 l))

/-- Line 16 of `fetch_data`: `df.columns = df.columns.str.strip()`, acting on
the list of parsed column names. -/
def stripColumns (cols : List String) : List String :=
  cols.map pyStrip

/-- Line 55 and line 65 of `get_sequence_files`:
`aux_set.split('/')[-2]`.  The Python index `-2` raises `IndexError` unless
the split produced at least two components. -/
def auxId (s : String) : Except String String :=
  if h : 2 ≤ (pySplit '/' s).length then
    Except.ok ((pySplit '/' s).get ⟨(pySplit '/' s).length - 2, by omega⟩)
  else Except.error "IndexError"

/-- Line 51-52 of `get_sequence_files`:
`str(v).strip().split(',')` followed by stripping each component. -/
def auxRefs (s : String) : List String :=
  (pySplit ',' (pyStrip s)).map pyStrip

/-- Measurement-set sequence-file query URL (line 43 of the source). -/
def msFilesUrl (m : String) : String :=
  "https://api.data.igvf.org/multireport.tsv?type=SequenceFile&file_set.@id=%2Fmeasurement-sets%2F" ++ m ++ "%2F&illumina_read_type=*&field=%40id&field=accession&field=illumina_read_type&field=lane&field=md5sum&field=flowcell_id&field=seqspecs"

/-- Auxiliary-set sequence-file query URL (lines 56 and 66 of the source);
note that it lacks the flowcell_id field of the measurement-set query. -/
def auxFilesUrl (a : String) : String :=
  "https://api.data.igvf.org/multireport.tsv?type=SequenceFile&file_set.@id=%2Fauxiliary-sets%2F" ++ a ++ "%2F&illumina_read_type=*&field=%40id&field=accession&field=illumina_read_type&field=lane&field=md5sum&field=seqspecs"

/-- Stamping of a fetched table (`df['measurement_sets'] = measurement_id`
followed by `df['file_modality'] = label`, in that order). -/
def tagTable (mv : Val) (modality : Val) (t : Table) : Table :=
  t.map (fun r => assign "file_modality" modality (assign "measurement_sets" mv r))

/-- Lines 62-70 of `get_sequence_files`: the loop
`for aux_type, aux_set in zip(['gRNA', 'hash'], aux_sets)`.  Each processed
pair fetches the auxiliary query, stamps the rows, and accumulates table and
URL; the Python guard `pd.notna(aux_set)` is always true for a `str` value
and is therefore omitted.  Returns the concatenated tables and the fetched
URLs in order. -/
def processPairs (fetch : String → Table) (mv : Val) :
    List (String × String) → Except String (Table × List String)
  | [] => Except.ok ([], [])
  | (ty, ref) :: rest =>
    match auxId ref with
    | Except.error e => Except.error e
    | Except.ok aid =>
      match processPairs fetch mv rest with
      | Except.error e => Except.error e
      | Except.ok (t, us) =>
        Except.ok
          (tagTable mv (some ty) (fetch (auxFilesUrl aid)) ++ t,
           auxFilesUrl aid :: us)

/-- Lines 54-70 of `get_sequence_files`, the branch on the stripped
comma-split auxiliary references: exactly one reference (`len(aux_sets) == 1`)
is queried and tagged gRNA; otherwise the references are zipped against
`['gRNA', 'hash']`, so only the first two are queried.  Returns the auxiliary
tables and URLs to be appended after the measurement-set ones. -/
def processAux (fetch : String → Table) (mv : Val) :
    List String → Except String (Table × List String)
  | [a] =>
    match auxId a with
    | Except.error e => Except.error e
    | Except.ok aid =>
      Except.ok
        (tagTable mv (some "gRNA") (fetch (auxFilesUrl aid)), [auxFilesUrl aid])
  | refs => processPairs fetch mv (List.zip ["gRNA", "hash"] refs)

/-- One iteration of the row loop of `get_sequence_files` (lines 40-70):
fetch the measurement-set files (tagged scRNA), then, when the
associated_auxiliary_sets cell is not NaN, process the comma-separated
auxiliary references via `processAux`.  The second component records the
fetched URLs in order. -/
def processLink (fetch : String → Table) (row : Row) :
    Except String (Table × List String) :=
  match reqCol row "measurement_sets" with
  | Except.error e => Except.error e
  | Except.ok mv =>
    let msU := msFilesUrl (pyStr mv)
    let msT := tagTable mv (some "scRNA") (fetch msU)
    match reqCol row "associated_auxiliary_sets" with
    | Except.error e => Except.error e
    | Except.ok av =>
      match av with
      | none => Except.ok (msT, [msU])
      | some s =>
        match processAux fetch mv (auxRefs s) with
        | Except.error e => Except.error e
        | Except.ok (t, us) => Except.ok (msT ++ t, msU :: us)

/-- The function `get_sequence_files` (lines 36-72): iterate the links,
concatenate all fetched tables (`pd.concat`), and return an empty table when
there were none.  The second component records every fetched URL in order. -/
def get_sequence_files (fetch : String → Table) :
    Table → Except String (Table × List String)
  | [] => Except.ok ([], [])
  | r :: rest =>
    match processLink fetch r with
    | Except.error e => Except.error e
    | Except.ok (t, us) =>
      match get_sequence_files fetch rest with
      | Except.error e => Except.error e
      | Except.ok (t2, us2) => Except.ok (t ++ t2, us ++ us2)

/-- Character list of the literal part of the regex on line 103:
`/configuration-files/`. -/
def litChars : List Char :=
  ("/configuration-files/").data

/-- Boolean test that the first argument is an initial segment of the
second. -/
def prefChk : List Char → List Char → Bool
  | [], _ => true
  | _ :: _, [] => false
  | a :: as, b :: bs => a == b && prefChk as bs

/-- One attempted match of the regex `/configuration-files/([^/]+)/` at the
head of `l`: the literal must match, the capture group must be a nonempty run
of non-slash characters, and a slash must follow it. -/
def matchSegAt (l : List Char) : Option (List Char) :=
  if prefChk litChars l then
    let rest := l.drop litChars.length
    let seg := rest.takeWhile (fun c => !(c == '/'))
    if seg.isEmpty then none
    else
      match rest.drop seg.length with
      | '/' :: _ => some seg
      | _ => none
  else none

/-- Search semantics of `re.search`: the pattern is tried at every start
position, and the first success wins. -/
def extractFrom : List Char → Option (List Char)
  | [] => none
  | c :: t =>
    match matchSegAt (c :: t) with
    | some seg => some seg
    | none => extractFrom t

/-- Occurrence test for the literal `/configuration-files/` anywhere in a
character list. -/
def hasLit : List Char → Bool
  | [] => false
  | c :: t => prefChk litChars (c :: t) || hasLit t

/-- Line 103 of the source on one value:
`.str.extract(r'/configuration-files/([^/]+)/', expand=False)`, which yields
the first capture group or NaN when the pattern does not match. -/
def extractConfig (s : String) : Option String :=
  (extractFrom s.data).map (fun cs => String.mk cs)

/-- Lines 100-103 of the source on one Seqspecs cell: `astype(str)` turns NaN
into the string "nan", `replace('nan', '')` maps that string to "", the
`.loc` mask leaves empty strings alone, and every other value goes through
the regex extraction (which can yield NaN again). -/
def normSeqspec (v : Val) : Val :=
  if pyStr v = "nan" then some ""
  else if pyStr v = "" then some ""
  else extractConfig (pyStr v)

/-- Application of the Seqspecs normalization to one merged row. -/
def normRow (r : Row) : Row :=
  r.map (fun p => if p.1 == "Seqspecs" then (p.1, normSeqspec p.2) else p)

/-- Column renaming (pandas `rename(columns=...)`) on one row. -/
def renameCols (m : List (String × String)) (r : Row) : Row :=
  r.map (fun p =>
    match m.find? (fun q => q.1 == p.1) with
    | some q => (q.2, p.2)
    | none => p)

/-- Line 84 of the source: rename Accession and MD5sum to the R1 names. -/
def renameR1 : Row → Row :=
  renameCols [("Accession", "R1_path"), ("MD5sum", "R1_md5sum")]

/-- Line 85 of the source: rename Accession and MD5sum to the R2 names. -/
def renameR2 : Row → Row :=
  renameCols [("Accession", "R2_path"), ("MD5sum", "R2_md5sum")]

/-- Column list of line 87 of the source. -/
def r1_cols : List String :=
  ["Lane", "measurement_sets", "file_modality", "R1_path", "R1_md5sum", "Flowcell ID", "Seqspecs"]

/-- Column list of line 88 of the source. -/
def r2_cols : List String :=
  ["Lane", "measurement_sets", "file_modality", "R2_path", "R2_md5sum", "Flowcell ID", "Seqspecs"]

/-- Final column order of lines 107-111 of the source. -/
def final_cols : List String :=
  ["R1_path", "R1_md5sum", "R2_path", "R2_md5sum", "measurement_sets", "Lane", "file_modality", "Flowcell ID", "Seqspecs"]

/-- Whole-column read `df['Illumina Read Type']` paired with the rows; raises
like pandas when the column is absent. -/
def readColumn (c : String) : Table → Except String (List (Row × Val))
  | [] => Except.ok []
  | r :: rest =>
    match getCol r c with
    | none => Except.error ("KeyError: " ++ c)
    | some v =>
      match readColumn c rest with
      | Except.error e => Except.error e
      | Except.ok l => Except.ok ((r, v) :: l)

/-- Line 79 of the source: keep the rows whose read type is exactly R1 or R2
(`isin(['R1','R2'])`, so a NaN read type is dropped). -/
def keptReads (tagged : List (Row × Val)) : List (Row × Val) :=
  tagged.filter (fun p => p.2 == some "R1" || p.2 == some "R2")

/-- Lines 81 and 84 of the source: the R1 subset, renamed. -/
def r1Rows (kept : List (Row × Val)) : List Row :=
  (kept.filter (fun p => p.2 == some "R1")).map (fun p => renameR1 p.1)

/-- Lines 82 and 85 of the source: the R2 subset, renamed. -/
def r2Rows (kept : List (Row × Val)) : List Row :=
  (kept.filter (fun p => p.2 == some "R2")).map (fun p => renameR2 p.1)

/-- Projection `df[cols]` on one row; raises like pandas when a requested
column is absent. -/
def selectRow (cols : List String) (r : Row) : Except String Row :=
  match cols with
  | [] => Except.ok []
  | c :: cs =>
    match getCol r c, selectRow cs r with
    | some v, Except.ok rest => Except.ok ((c, v) :: rest)
    | none, _ => Except.error ("KeyError: " ++ c)
    | some _, Except.error e => Except.error e

/-- Projection `df[cols]` on a whole table. -/
def selectRows (cols : List String) : Table → Except String Table
  | [] => Except.ok []
  | r :: rest =>
    match selectRow cols r, selectRows cols rest with
    | Except.ok r2, Except.ok l => Except.ok (r2 :: l)
    | Except.error e, _ => Except.error e
    | Except.ok _, Except.error e => Except.error e

/-- Join key of the merge on line 95 of the source, in the order given
there. -/
def key5cols : List String :=
  ["Lane", "measurement_sets", "file_modality", "Flowcell ID", "Seqspecs"]

/-- Join-key tuple of a row for the outer merge; NaN keys compare equal, as
in pandas merge. -/
def key5 (r : Row) : List Val :=
  key5cols.map (fun c => getV r c)

/-- Sort key columns of line 105 of the source, in the order given there. -/
def key4cols : List String :=
  ["measurement_sets", "Lane", "file_modality", "Flowcell ID"]

/-- Sort-key tuple of a row for `sort_values` on line 105. -/
def key4 (r : Row) : List Val :=
  key4cols.map (fun c => getV r c)

/-- The merged-frame row produced from a left (R1) row: key and R1 columns
are taken from the left row, and `rf` supplies the two R2 columns. -/
def mergedRow (l : Row) (rf : List (String × Val)) : Row :=
  [("Lane", getV l "Lane"), ("measurement_sets", getV l "measurement_sets"),
   ("file_modality", getV l "file_modality"), ("R1_path", getV l "R1_path"),
   ("R1_md5sum", getV l "R1_md5sum"), ("Flowcell ID", getV l "Flowcell ID"),
   ("Seqspecs", getV l "Seqspecs")] ++ rf

/-- The two right-hand columns contributed by a matching R2 row. -/
def r2Fields (r : Row) : List (String × Val) :=
  [("R2_path", getV r "R2_path"), ("R2_md5sum", getV r "R2_md5sum")]

/-- Null right-hand columns for a left row with no key match. -/
def nullR2 : List (String × Val) :=
  [("R2_path", none), ("R2_md5sum", none)]

/-- The merged-frame row produced from a right (R2) row with no key match:
its R1 columns are null. -/
def rightOnlyRow (r : Row) : Row :=
  [("Lane", getV r "Lane"), ("measurement_sets", getV r "measurement_sets"),
   ("file_modality", getV r "file_modality"), ("R1_path", none),
   ("R1_md5sum", none), ("Flowcell ID", getV r "Flowcell ID"),
   ("Seqspecs", getV r "Seqspecs"), ("R2_path", getV r "R2_path"),
   ("R2_md5sum", getV r "R2_md5sum")]

/-- Rows produced by one left (R1) row under the outer merge: one merged row
per matching right row, or a single null-extended row when nothing
matches. -/
def mergeBlock (rs : List Row) (l : Row) : List Row :=
  let ms := rs.filter (fun r => decide (key5 r = key5 l))
  if ms.isEmpty then [mergedRow l nullR2]
  else ms.map (fun r => mergedRow l (r2Fields r))

/-- Lines 93-97 of the source: `pd.merge(r1_data, r2_data, on=..., how='outer')`.
Every left row contributes its block; every right row whose key matches no
left row additionally surfaces with null R1 columns. -/
def mergeOuter (ls rs : List Row) : List Row :=
  ls.flatMap (mergeBlock rs) ++
    (rs.filter (fun r => !(ls.any (fun l => decide (key5 l = key5 r))))).map rightOnlyRow

/-- Three-way lexicographic comparison of character lists by code point. -/
def cmpChars : List Char → List Char → Ordering
  | [], [] => Ordering.eq
  | [], _ :: _ => Ordering.lt
  | _ :: _, [] => Ordering.gt
  | a :: as, b :: bs =>
    if a.toNat < b.toNat then Ordering.lt
    else if b.toNat < a.toNat then Ordering.gt
    else cmpChars as bs

/-- Comparison of cells under `sort_values` defaults: NaN sorts last
(`na_position='last'`), strings compare lexicographically. -/
def cmpV : Val → Val → Ordering
  | none, none => Ordering.eq
  | none, some _ => Ordering.gt
  | some _, none => Ordering.lt
  | some a, some b => cmpChars a.data b.data

/-- Lexicographic comparison of key tuples. -/
def cmpKey : List Val → List Val → Ordering
  | [], [] => Ordering.eq
  | [], _ :: _ => Ordering.lt
  | _ :: _, [] => Ordering.gt
  | a :: as, b :: bs =>
    match cmpV a b with
    | Ordering.eq => cmpKey as bs
    | o => o

/-- Row comparison used for `sort_values(['measurement_sets', 'Lane',
'file_modality', 'Flowcell ID'])` on line 105. -/
def rowLe (a b : Row) : Bool :=
  match cmpKey (key4 a) (key4 b) with
  | Ordering.gt => false
  | _ => true

/-- Propositional form of `rowLe`, as required by the sorting function. -/
def rowLeP (a b : Row) : Prop :=
  rowLe a b = true

instance : DecidableRel rowLeP :=
  fun a b => inferInstanceAs (Decidable (rowLe a b = true))

/-- The function `rearrange_sequence_files` (lines 74-113): early return on
an empty table; filter to R1/R2 read types; split, rename and project the two
subsets; outer-merge them on the five-column key; normalize Seqspecs; sort by
the four-column key; project to the final column order. -/
def rearrange_sequence_files (t : Table) : Except String Table :=
  match t with
  | [] => Except.ok []
  | _ :: _ =>
    match readColumn "Illumina Read Type" t with
    | Except.error e => Except.error e
    | Except.ok tagged =>
      let kept := keptReads tagged
      match selectRows r1_cols (r1Rows kept), selectRows r2_cols (r2Rows kept) with
      | Except.ok r1s, Except.ok r2s =>
        selectRows final_cols
          (List.insertionSort rowLeP ((mergeOuter r1s r2s).map normRow))
      | Except.error e, _ => Except.error e
      | Except.ok _, Except.error e => Except.error e

/-
Helper lemmas.
-/

theorem dropWhile_length_le (p : Char → Bool) :
    ∀ l : List Char, (l.dropWhile p).length ≤ l.length := by
  intro l
  induction l with
  | nil => simp
  | cons c t ih =>
    by_cases h : p c = true
    · rw [List.dropWhile_cons, if_pos h]
      simp only [List.length_cons]
      omega
    · rw [List.dropWhile_cons, if_neg h]

theorem dropWhile_self (p : Char → Bool) :
    ∀ l : List Char, (l.dropWhile p).dropWhile p = l.dropWhile p := by
  intro l
  induction l with
  | nil => rfl
  | cons c t ih =>
    by_cases h : p c = true
    · rw [List.dropWhile_cons, if_pos h]
      exact ih
    · rw [List.dropWhile_cons, if_neg h, List.dropWhile_cons, if_neg h]

theorem noLead_of_append (p : Char → Bool) (z w : List Char)
    (h : (z ++ w).dropWhile p = z ++ w) : z.dropWhile p = z := by
  cases z with
  | nil => rfl
  | cons c t =>
    by_cases hc : p c = true
    · exfalso
      simp only [List.cons_append, List.dropWhile_cons, hc, if_true] at h
      have h1 : ((t ++ w).dropWhile p).length ≤ (t ++ w).length :=
        dropWhile_length_le p (t ++ w)
      rw [h] at h1
      simp at h1
    · rw [List.dropWhile_cons, if_neg hc]

theorem trimChars_noLead (l : List Char) :
    (trimChars l).dropWhile isPySpace = trimChars l := by
  have hx : List.dropWhile isPySpace l =
      (List.dropWhile isPySpace (List.dropWhile isPySpace l).reverse).reverse ++
        (List.takeWhile isPySpace (List.dropWhile isPySpace l).reverse).reverse := by
    have h0 := List.takeWhile_append_dropWhile
      (p := isPySpace) (l := (List.dropWhile isPySpace l).reverse)
    have h1 := congrArg List.reverse h0
    rw [List.reverse_append, List.reverse_reverse] at h1
    exact h1.symm
  have hself : (List.dropWhile isPySpace l).dropWhile isPySpace
      = List.dropWhile isPySpace l := dropWhile_self isPySpace l
  rw [hx] at hself
  exact noLead_of_append isPySpace _ _ hself

theorem trimChars_idem (l : List Char) : trimChars (trimChars l) = trimChars l := by
  have h2 : (trimChars l).reverse.dropWhile isPySpace = (trimChars l).reverse := by
    have : (trimChars l).reverse
        = (l.dropWhile isPySpace).reverse.dropWhile isPySpace := by
      simp only [trimChars, List.reverse_reverse]
    rw [this]
    exact dropWhile_self isPySpace _
  calc trimChars (trimChars l)
      = (((trimChars l).dropWhile isPySpace).reverse.dropWhile isPySpace).reverse := rfl
    _ = ((trimChars l).reverse.dropWhile isPySpace).reverse := by rw [trimChars_noLead]
    _ = (trimChars l).reverse.reverse := by rw [h2]
    _ = trimChars l := List.reverse_reverse _

theorem pyStrip_idem (s : String) : pyStrip (pyStrip s) = pyStrip s := by
  have : pyStrip (pyStrip s) = String.mk (trimChars (trimChars s.data)) := rfl
  rw [this, trimChars_idem]
  rfl

theorem splitAux_length (sep : Char) :
    ∀ (l acc : List Char), (splitAux sep acc l).length = l.count sep + 1 := by
  intro l
  induction l with
  | nil => intro acc; rfl
  | cons c cs ih =>
    intro acc
    by_cases h : (c == sep) = true
    · simp [splitAux, h, List.count_cons, ih]
    · simp [splitAux, h, List.count_cons, ih]

theorem pySplit_length (sep : Char) (s : String) :
    (pySplit sep s).length = s.data.count sep + 1 := by
  simp [pySplit, splitAux_length]

theorem auxId_ok_of_slash (s : String) (h : '/' ∈ s.data) :
    ∃ v, auxId s = Except.ok v := by
  have hc : 0 < s.data.count '/' := List.count_pos_iff.mpr h
  have hl : 2 ≤ (pySplit '/' s).length := by
    rw [pySplit_length]; omega
  exact ⟨_, dif_pos hl⟩

theorem auxId_err_of_no_slash (s : String) (h : '/' ∉ s.data) :
    auxId s = Except.error "IndexError" := by
  have hc : s.data.count '/' = 0 := List.count_eq_zero.mpr h
  have hl : ¬ 2 ≤ (pySplit '/' s).length := by
    rw [pySplit_length, hc]; omega
  exact dif_neg hl

theorem processPairs_cons (fetch : String → Table) (mv : Val) (ty ref : String)
    (rest : List (String × String)) (aid : String) (h : auxId ref = Except.ok aid)
    (t : Table) (us : List String) (h2 : processPairs fetch mv rest = Except.ok (t, us)) :
    processPairs fetch mv ((ty, ref) :: rest) =
      Except.ok (tagTable mv (some ty) (fetch (auxFilesUrl aid)) ++ t,
        auxFilesUrl aid :: us) := by
  simp only [processPairs, h, h2]

theorem processPairs_err (fetch : String → Table) (mv : Val) (ty ref : String)
    (rest : List (String × String)) (e : String) (h : auxId ref = Except.error e) :
    processPairs fetch mv ((ty, ref) :: rest) = Except.error e := by
  simp only [processPairs, h]

theorem processAux_single (fetch : String → Table) (mv : Val) (a aid : String)
    (h : auxId a = Except.ok aid) :
    processAux fetch mv [a] =
      Except.ok (tagTable mv (some "gRNA") (fetch (auxFilesUrl aid)),
        [auxFilesUrl aid]) := by
  simp only [processAux, h]

theorem processAux_multi (fetch : String → Table) (mv : Val) (a b : String)
    (rest : List String) (ia ib : String)
    (ha : auxId a = Except.ok ia) (hb : auxId b = Except.ok ib) :
    processAux fetch mv (a :: b :: rest) =
      Except.ok
        (tagTable mv (some "gRNA") (fetch (auxFilesUrl ia)) ++
          tagTable mv (some "hash") (fetch (auxFilesUrl ib)),
         [auxFilesUrl ia, auxFilesUrl ib]) := by
  have h0 : processPairs fetch mv ([] : List (String × String)) = Except.ok ([], []) := rfl
  have h2 := processPairs_cons fetch mv "hash" b [] ib hb [] [] h0
  rw [List.append_nil] at h2
  have h1 := processPairs_cons fetch mv "gRNA" a [("hash", b)] ia ha _ _ h2
  calc processAux fetch mv (a :: b :: rest)
      = processPairs fetch mv [("gRNA", a), ("hash", b)] := rfl
    _ = _ := h1

theorem processAux_err_head (fetch : String → Table) (mv : Val) (a : String)
    (rest : List String) (h : auxId a = Except.error "IndexError") :
    processAux fetch mv (a :: rest) = Except.error "IndexError" := by
  cases rest with
  | nil => simp only [processAux, h]
  | cons b r2 =>
    calc processAux fetch mv (a :: b :: r2)
        = processPairs fetch mv (("gRNA", a) :: ("hash", b) :: []) := rfl
      _ = Except.error "IndexError" := processPairs_err fetch mv "gRNA" a _ _ h

theorem processLink_eq (fetch : String → Table) (m s : String) :
    processLink fetch
        [("measurement_sets", some m), ("associated_auxiliary_sets", some s)] =
      (match processAux fetch (some m) (auxRefs s) with
       | Except.error e => Except.error e
       | Except.ok (t, us) =>
         Except.ok
           (tagTable (some m) (some "scRNA") (fetch (msFilesUrl m)) ++ t,
            msFilesUrl m :: us)) := rfl

theorem processLink_ok (fetch : String → Table) (m s : String) (t : Table)
    (us : List String) (h : processAux fetch (some m) (auxRefs s) = Except.ok (t, us)) :
    processLink fetch
        [("measurement_sets", some m), ("associated_auxiliary_sets", some s)] =
      Except.ok
        (tagTable (some m) (some "scRNA") (fetch (msFilesUrl m)) ++ t,
         msFilesUrl m :: us) := by
  rw [processLink_eq, h]

theorem processLink_err (fetch : String → Table) (m s e : String)
    (h : processAux fetch (some m) (auxRefs s) = Except.error e) :
    processLink fetch
        [("measurement_sets", some m), ("associated_auxiliary_sets", some s)] =
      Except.error e := by
  rw [processLink_eq, h]

/-
Claim theorems.
-/

/-- C6: the Reshaper returns an empty table on empty input through the
explicit early return of lines 76-77, and an empty analysis-set result (zero
links) propagates through the Enumerator to an empty output and then through
the Reshaper, without any error. -/
theorem C6_empty_propagation :
    rearrange_sequence_files [] = Except.ok [] ∧
    (∀ fetch : String → Table, get_sequence_files fetch [] = Except.ok ([], [])) ∧
    (∀ fetch : String → Table,
      (get_sequence_files fetch []).bind (fun p => rearrange_sequence_files p.1) =
        Except.ok []) :=
  ⟨rfl, fun _ => rfl, fun _ => rfl⟩

/-- C2 (amended): the fetcher discards every line that starts with "20",
wherever it occurs in the body, not only the leading timestamp lines; the
remaining lines are exactly the lines of the split body without a "20"
head, in order, and parsed column names are whitespace-trimmed. -/
theorem C2_line_filtering_and_trim :
    (∀ (body l : String),
      l ∈ fetch_data_lines body ↔ l ∈ pySplit '\n' body ∧ startsWith20 l = false) ∧
    (∀ (cols : List String) (c : String), c ∈ stripColumns cols → pyStrip c = c) ∧
    (∀ (cols : List String) (c : String), c ∈ cols → pyStrip c ∈ stripColumns cols) := by
  refine ⟨?_, ?_, ?_⟩
  · intro body l
    simp [fetch_data_lines, List.mem_filter]
  · intro cols c hc
    simp only [stripColumns, List.mem_map] at hc
    obtain ⟨c0, _, rfl⟩ := hc
    exact pyStrip_idem c0
  · intro cols c hc
    exact List.mem_map_of_mem pyStrip hc

/-- Witness for C2 at concrete inputs. -/
theorem C2_witness :
    pyStrip "Auxiliary Sets" = "Auxiliary Sets" ∧
    pyStrip "ID" ∈ stripColumns ["ID", " Lane "] := by
  constructor
  · exact C2_line_filtering_and_trim.2.1 ["  Auxiliary Sets "] "Auxiliary Sets" (by decide)
  · exact C2_line_filtering_and_trim.2.2 ["ID", " Lane "] "ID" (by decide)

/-- Counterexample to C2 as stated: in this body the third line starts with
"20" but is not part of the leading timestamp prefix, yet it is discarded
instead of being passed to the delimiter parser. -/
theorem C2_cex :
    fetch_data_lines "2024-05-01T00:00:00\nID\tAuxiliary Sets\n2023ROW\tdata" =
      ["ID\tAuxiliary Sets"] ∧
    "2023ROW\tdata" ∉
      fetch_data_lines "2024-05-01T00:00:00\nID\tAuxiliary Sets\n2023ROW\tdata" := by
  exact ⟨rfl, by decide⟩

/-- C9: extraction of the auxiliary-set identifier by `split('/')[-2]` is
defined exactly on references containing at least one slash (then the split
has at least two components); on a reference without a slash it raises
IndexError, and the Enumerator consequently fails on such a link instead of
producing rows. -/
theorem C9_aux_extraction_definedness :
    (∀ s : String, '/' ∈ s.data → ∃ v, auxId s = Except.ok v) ∧
    (∀ s : String, '/' ∉ s.data → auxId s = Except.error "IndexError") ∧
    (∀ (fetch : String → Table) (m s a : String) (rest : List String),
      auxRefs s = a :: rest → '/' ∉ a.data →
      processLink fetch
          [("measurement_sets", some m), ("associated_auxiliary_sets", some s)] =
        Except.error "IndexError") := by
  refine ⟨auxId_ok_of_slash, auxId_err_of_no_slash, ?_⟩
  intro fetch m s a rest hrefs ha
  apply processLink_err
  rw [hrefs]
  exact processAux_err_head fetch (some m) a rest (auxId_err_of_no_slash a ha)

/-- Witness for C9 at concrete inputs. -/
theorem C9_witness :
    (∃ v, auxId "/auxiliary-sets/IGVFAS1/" = Except.ok v) ∧
    auxId "IGVFAS1" = Except.error "IndexError" ∧
    processLink (fun _ => [])
        [("measurement_sets", some "M1"), ("associated_auxiliary_sets", some "noslash")] =
      Except.error "IndexError" := by
  refine ⟨?_, ?_, ?_⟩
  · exact C9_aux_extraction_definedness.1 "/auxiliary-sets/IGVFAS1/" (by decide)
  · exact C9_aux_extraction_definedness.2.1 "IGVFAS1" (by decide)
  · exact C9_aux_extraction_definedness.2.2 (fun _ => []) "M1" "noslash" "noslash" []
      (by rfl) (by decide)

theorem prefChk_self_app : ∀ (xs ys : List Char), prefChk xs (xs ++ ys) = true := by
  intro xs
  induction xs with
  | nil => intro ys; rfl
  | cons a as ih => intro ys; simp [prefChk, ih]

theorem takeWhile_exact (p : Char → Bool) :
    ∀ (xs : List Char) (y : Char) (ys : List Char),
      (∀ x ∈ xs, p x = true) → p y = false → (xs ++ y :: ys).takeWhile p = xs := by
  intro xs
  induction xs with
  | nil =>
    intro y ys _ hy
    simp [List.takeWhile_cons, hy]
  | cons a as ih =>
    intro y ys hx hy
    have ha : p a = true := hx a (by simp)
    simp only [List.cons_append, List.takeWhile_cons, ha, if_true]
    rw [ih y ys (fun x hx2 => hx x (by simp [hx2])) hy]

theorem litChars_ne_nil : litChars ≠ [] := by decide

theorem matchSegAt_exact (seg post : List Char) (hne : seg ≠ [])
    (hs : ∀ c ∈ seg, (c == '/') = false) :
    matchSegAt (litChars ++ (seg ++ '/' :: post)) = some seg := by
  have hp := prefChk_self_app litChars (seg ++ '/' :: post)
  have ht : (seg ++ '/' :: post).takeWhile (fun c => !(c == '/')) = seg :=
    takeWhile_exact _ seg '/' post (fun x hx => by simp [hs x hx]) (by simp)
  have hie : seg.isEmpty = false := by
    cases seg with
    | nil => exact absurd rfl hne
    | cons a t => rfl
  simp only [matchSegAt, hp, if_true, List.drop_left, ht, hie, Bool.false_eq_true,
    if_false]

theorem extractFrom_of_matchAt (l seg : List Char) (hl : l ≠ [])
    (h : matchSegAt l = some seg) : extractFrom l = some seg := by
  cases l with
  | nil => exact absurd rfl hl
  | cons c t => simp only [extractFrom, h]

theorem extractFrom_exact (seg post : List Char) (hne : seg ≠ [])
    (hs : ∀ c ∈ seg, (c == '/') = false) :
    extractFrom (litChars ++ (seg ++ '/' :: post)) = some seg := by
  apply extractFrom_of_matchAt
  · intro h
    rw [List.append_eq_nil] at h
    exact litChars_ne_nil h.1
  · exact matchSegAt_exact seg post hne hs

theorem hasLit_false_extractFrom (l : List Char) (h : hasLit l = false) :
    extractFrom l = none := by
  induction l with
  | nil => rfl
  | cons c t ih =>
    rw [hasLit, Bool.or_eq_false_iff] at h
    obtain ⟨h1, h2⟩ := h
    have hm : matchSegAt (c :: t) = none := by
      simp only [matchSegAt, h1, Bool.false_eq_true, if_false]
    simp only [extractFrom, hm]
    exact ih h2

/-- C10 (amended): a non-empty Seqspecs value other than the literal string
"nan" on which the extraction regex finds no match is replaced by null after
normalization; in particular this happens whenever the literal
`/configuration-files/` does not occur in the value at all.  The literal
string "nan", however, is replaced by the empty string, not by null. -/
theorem C10_unmatched_seqspec_null :
    (∀ s : String, s ≠ "" → s ≠ "nan" → extractFrom s.data = none →
      normSeqspec (some s) = none) ∧
    (∀ s : String, hasLit s.data = false → extractFrom s.data = none) ∧
    normSeqspec (some "nan") = some "" := by
  refine ⟨?_, fun s h => hasLit_false_extractFrom s.data h, rfl⟩
  intro s hne hnan hext
  have hps : pyStr (some s) = s := rfl
  simp only [normSeqspec, hps, if_neg hnan, if_neg hne, extractConfig, hext,
    Option.map_none']

/-- Witness for C10 at concrete inputs. -/
theorem C10_witness :
    normSeqspec (some "zzz") = none ∧ extractFrom ("no-match-here").data = none := by
  constructor
  · exact C10_unmatched_seqspec_null.1 "zzz" (by decide) (by decide) (by rfl)
  · exact C10_unmatched_seqspec_null.2.1 "no-match-here" (by rfl)

/-- Counterexample to C10 as stated: "nan" is a non-empty value without a
configuration-files segment, yet normalization maps it to the empty string
rather than to null. -/
theorem C10_cex :
    normSeqspec (some "nan") = some "" ∧ normSeqspec (some "nan") ≠ none := by
  exact ⟨rfl, by decide⟩

/-- C1 (amended): the Seqspecs normalization maps a missing value, an
already-empty value, and the literal string "nan" to the empty string; a
value containing the path `/configuration-files/<segment>/` yields the
segment (in particular ".../configuration-files/XYZ123/" yields "XYZ123");
but a non-empty value other than "nan" on which the regex finds no match is
replaced by null, so nulls can remain in the Seqspecs column after
normalization. -/
theorem C1_seqspec_normalization :
    normSeqspec none = some "" ∧
    normSeqspec (some "") = some "" ∧
    normSeqspec (some ".../configuration-files/XYZ123/") = some "XYZ123" ∧
    (∀ (seg post : List Char) (s : String), seg ≠ [] →
      (∀ c ∈ seg, (c == '/') = false) →
      s.data = litChars ++ (seg ++ '/' :: post) →
      normSeqspec (some s) = some (String.mk seg)) ∧
    (∀ s : String, s ≠ "" → s ≠ "nan" → extractFrom s.data = none →
      normSeqspec (some s) = none) := by
  refine ⟨rfl, rfl, rfl, ?_, ?_⟩
  · intro seg post s hne hs hdata
    have hsne : s ≠ "" := by
      intro h
      subst h
      have h2 : ([] : List Char) = litChars ++ (seg ++ '/' :: post) := hdata
      have h3 := List.append_eq_nil.mp h2.symm
      exact litChars_ne_nil h3.1
    have hsnan : s ≠ "nan" := by
      intro h
      subst h
      have h2 : ['n', 'a', 'n'] = litChars ++ (seg ++ '/' :: post) := hdata
      rw [show litChars = '/' :: ("configuration-files/").data from rfl] at h2
      injection h2 with hh _
      exact absurd hh (by decide)
    have hps : pyStr (some s) = s := rfl
    simp only [normSeqspec, hps, if_neg hsnan, if_neg hsne, extractConfig, hdata,
      extractFrom_exact seg post hne hs, Option.map_some']
  · intro s hne hnan hext
    have hps : pyStr (some s) = s := rfl
    simp only [normSeqspec, hps, if_neg hnan, if_neg hne, extractConfig, hext,
      Option.map_none']

/-- Witness for C1 at concrete inputs. -/
theorem C1_witness :
    normSeqspec (some "/configuration-files/IGVF/") = some (String.mk ['I', 'G', 'V', 'F']) ∧
    normSeqspec (some "zzzz") = none := by
  constructor
  · exact C1_seqspec_normalization.2.2.2.1 ['I', 'G', 'V', 'F'] []
      "/configuration-files/IGVF/" (by decide) (by decide) (by rfl)
  · exact C1_seqspec_normalization.2.2.2.2 "zzzz" (by decide) (by decide) (by rfl)

/-- Counterexample to C1 as stated: a run of the Reshaper on a table whose
Seqspecs value "foo" is non-empty but contains no configuration-files
segment leaves a null in the Seqspecs column of the output. -/
theorem C1_cex :
    rearrange_sequence_files
        [[("Illumina Read Type", some "R1"), ("Accession", some "F1"),
          ("MD5sum", some "M1"), ("Lane", some "1"),
          ("measurement_sets", some "MS1"), ("file_modality", some "scRNA"),
          ("Flowcell ID", some "FC1"), ("Seqspecs", some "foo")]] =
      Except.ok
        [[("R1_path", some "F1"), ("R1_md5sum", some "M1"), ("R2_path", none),
          ("R2_md5sum", none), ("measurement_sets", some "MS1"),
          ("Lane", some "1"), ("file_modality", some "scRNA"),
          ("Flowcell ID", some "FC1"), ("Seqspecs", none)]] := by
  rfl

/-- C3: when the associated auxiliary references split into two or more, the
Enumerator queries the first with modality gRNA and the second with modality
hash, fetching exactly those two auxiliary URLs and silently ignoring every
further reference (without error); a single auxiliary reference is queried
with modality gRNA. -/
theorem C3_aux_modality_assignment :
    (∀ (fetch : String → Table) (m s a b ia ib : String) (rest : List String),
      auxRefs s = a :: b :: rest →
      auxId a = Except.ok ia → auxId b = Except.ok ib →
      processLink fetch
          [("measurement_sets", some m), ("associated_auxiliary_sets", some s)] =
        Except.ok
          (tagTable (some m) (some "scRNA") (fetch (msFilesUrl m)) ++
            (tagTable (some m) (some "gRNA") (fetch (auxFilesUrl ia)) ++
              tagTable (some m) (some "hash") (fetch (auxFilesUrl ib))),
           [msFilesUrl m, auxFilesUrl ia, auxFilesUrl ib])) ∧
    (∀ (fetch : String → Table) (m s a ia : String),
      auxRefs s = [a] → auxId a = Except.ok ia →
      processLink fetch
          [("measurement_sets", some m), ("associated_auxiliary_sets", some s)] =
        Except.ok
          (tagTable (some m) (some "scRNA") (fetch (msFilesUrl m)) ++
            tagTable (some m) (some "gRNA") (fetch (auxFilesUrl ia)),
           [msFilesUrl m, auxFilesUrl ia])) := by
  constructor
  · intro fetch m s a b ia ib rest hrefs ha hb
    apply processLink_ok
    rw [hrefs]
    exact processAux_multi fetch (some m) a b rest ia ib ha hb
  · intro fetch m s a ia hrefs ha
    apply processLink_ok
    rw [hrefs]
    exact processAux_single fetch (some m) a ia ha

/-- Witness for C3: a link with three auxiliary references is processed with
gRNA and hash labels for the first two and no query for the third. -/
theorem C3_witness :
    processLink (fun _ => [[("ID", some "x")]])
        [("measurement_sets", some "IGVFDS0002"),
         ("associated_auxiliary_sets",
          some "/auxiliary-sets/IGVFAS1/, /auxiliary-sets/IGVFAS2/, /auxiliary-sets/IGVFAS3/")] =
      Except.ok
        (tagTable (some "IGVFDS0002") (some "scRNA")
            ((fun _ => [[("ID", some "x")]]) (msFilesUrl "IGVFDS0002")) ++
          (tagTable (some "IGVFDS0002") (some "gRNA")
              ((fun _ => [[("ID", some "x")]]) (auxFilesUrl "IGVFAS1")) ++
            tagTable (some "IGVFDS0002") (some "hash")
              ((fun _ => [[("ID", some "x")]]) (auxFilesUrl "IGVFAS2"))),
         [msFilesUrl "IGVFDS0002", auxFilesUrl "IGVFAS1", auxFilesUrl "IGVFAS2"]) := by
  exact C3_aux_modality_assignment.1 (fun _ => [[("ID", some "x")]]) "IGVFDS0002"
    "/auxiliary-sets/IGVFAS1/, /auxiliary-sets/IGVFAS2/, /auxiliary-sets/IGVFAS3/"
    "/auxiliary-sets/IGVFAS1/" "/auxiliary-sets/IGVFAS2/" "IGVFAS1" "IGVFAS2"
    ["/auxiliary-sets/IGVFAS3/"] (by rfl) (by rfl) (by rfl)

theorem key5_mergedRow (l : Row) (rf : List (String × Val)) :
    key5 (mergedRow l rf) = key5 l := rfl

theorem key5_rightOnlyRow (r : Row) : key5 (rightOnlyRow r) = key5 r := rfl

theorem mem_mergeBlock_matched (rs : List Row) (l r : Row) (hr : r ∈ rs)
    (hk : key5 r = key5 l) : mergedRow l (r2Fields r) ∈ mergeBlock rs l := by
  have hr2 : r ∈ rs.filter (fun r2 => decide (key5 r2 = key5 l)) :=
    List.mem_filter.mpr ⟨hr, by simp [hk]⟩
  have hne : (rs.filter (fun r2 => decide (key5 r2 = key5 l))).isEmpty = false := by
    cases hh : rs.filter (fun r2 => decide (key5 r2 = key5 l)) with
    | nil => rw [hh] at hr2; cases hr2
    | cons x xs => rfl
  simp only [mergeBlock, hne, Bool.false_eq_true, if_false]
  exact List.mem_map_of_mem _ hr2

theorem mergeBlock_unmatched (rs : List Row) (l : Row)
    (h : ∀ r ∈ rs, key5 r ≠ key5 l) : mergeBlock rs l = [mergedRow l nullR2] := by
  have hf : rs.filter (fun r2 => decide (key5 r2 = key5 l)) = [] := by
    rw [List.filter_eq_nil_iff]
    intro r hr
    simp [h r hr]
  simp [mergeBlock, hf]

theorem mem_mergeOuter_left (ls rs : List Row) (l : Row) (hl : l ∈ ls)
    (row : Row) (hrow : row ∈ mergeBlock rs l) : row ∈ mergeOuter ls rs := by
  unfold mergeOuter
  exact List.mem_append_left _ (List.mem_flatMap.mpr ⟨l, hl, hrow⟩)

theorem mem_mergeOuter_right (ls rs : List Row) (r : Row) (hr : r ∈ rs)
    (h : ∀ l ∈ ls, key5 l ≠ key5 r) : rightOnlyRow r ∈ mergeOuter ls rs := by
  unfold mergeOuter
  apply List.mem_append_right
  apply List.mem_map_of_mem
  refine List.mem_filter.mpr ⟨hr, ?_⟩
  simp only [Bool.not_eq_eq_eq_not, Bool.not_true, List.any_eq_false,
    decide_eq_false_iff_not]
  intro x hx
  simp [h x hx]

/-- C4: the Reshaper keeps exactly the rows whose read type is R1 or R2, and
the outer merge pairs every R1 row with every key-matching R2 row (both
path/md5sum pairs taken from the two rows), surfaces an unmatched R1 row
with null R2 columns and an unmatched R2 row with null R1 columns, and drops
no R1 or R2 row: every input row of either side contributes an output row
with its key and its own path/md5sum values. -/
theorem C4_outer_join_semantics :
    (∀ (tagged : List (Row × Val)) (p : Row × Val),
      p ∈ keptReads tagged ↔ p ∈ tagged ∧ (p.2 = some "R1" ∨ p.2 = some "R2")) ∧
    (∀ (ls rs : List Row) (l r : Row), l ∈ ls → r ∈ rs → key5 r = key5 l →
      mergedRow l (r2Fields r) ∈ mergeOuter ls rs) ∧
    (∀ (ls rs : List Row) (l : Row), l ∈ ls → (∀ r ∈ rs, key5 r ≠ key5 l) →
      mergedRow l nullR2 ∈ mergeOuter ls rs) ∧
    (∀ (ls rs : List Row) (r : Row), r ∈ rs → (∀ l ∈ ls, key5 l ≠ key5 r) →
      rightOnlyRow r ∈ mergeOuter ls rs) ∧
    (∀ (ls rs : List Row) (l : Row), l ∈ ls →
      ∃ row ∈ mergeOuter ls rs, key5 row = key5 l ∧
        getV row "R1_path" = getV l "R1_path" ∧
        getV row "R1_md5sum" = getV l "R1_md5sum") ∧
    (∀ (ls rs : List Row) (r : Row), r ∈ rs →
      ∃ row ∈ mergeOuter ls rs, key5 row = key5 r ∧
        getV row "R2_path" = getV r "R2_path" ∧
        getV row "R2_md5sum" = getV r "R2_md5sum") := by
  refine ⟨?_, ?_, ?_, ?_, ?_, ?_⟩
  · intro tagged p
    simp [keptReads, List.mem_filter]
  · intro ls rs l r hl hr hk
    exact mem_mergeOuter_left ls rs l hl _ (mem_mergeBlock_matched rs l r hr hk)
  · intro ls rs l hl h
    apply mem_mergeOuter_left ls rs l hl
    rw [mergeBlock_unmatched rs l h]
    exact List.mem_singleton.mpr rfl
  · intro ls rs r hr h
    exact mem_mergeOuter_right ls rs r hr h
  · intro ls rs l hl
    by_cases hm : ∀ r ∈ rs, key5 r ≠ key5 l
    · refine ⟨mergedRow l nullR2, ?_, key5_mergedRow l nullR2, rfl, rfl⟩
      apply mem_mergeOuter_left ls rs l hl
      rw [mergeBlock_unmatched rs l hm]
      exact List.mem_singleton.mpr rfl
    · push_neg at hm
      obtain ⟨r, hr, hk⟩ := hm
      exact ⟨mergedRow l (r2Fields r),
        mem_mergeOuter_left ls rs l hl _ (mem_mergeBlock_matched rs l r hr hk),
        key5_mergedRow l _, rfl, rfl⟩
  · intro ls rs r hr
    by_cases hm : ∀ l ∈ ls, key5 l ≠ key5 r
    · exact ⟨rightOnlyRow r, mem_mergeOuter_right ls rs r hr hm,
        key5_rightOnlyRow r, rfl, rfl⟩
    · push_neg at hm
      obtain ⟨l, hl, hk⟩ := hm
      refine ⟨mergedRow l (r2Fields r),
        mem_mergeOuter_left ls rs l hl _ (mem_mergeBlock_matched rs l r hr hk.symm),
        ?_, rfl, rfl⟩
      rw [key5_mergedRow l _, hk]

/-- Witness for C4 at concrete rows. -/
theorem C4_witness :
    mergedRow
        [("Lane", some "1"), ("measurement_sets", some "M"),
         ("file_modality", some "scRNA"), ("R1_path", some "A1"),
         ("R1_md5sum", some "H1"), ("Flowcell ID", some "F"),
         ("Seqspecs", some "S")]
        (r2Fields
          [("Lane", some "1"), ("measurement_sets", some "M"),
           ("file_modality", some "scRNA"), ("R2_path", some "B1"),
           ("R2_md5sum", some "G1"), ("Flowcell ID", some "F"),
           ("Seqspecs", some "S")]) ∈
      mergeOuter
        [[("Lane", some "1"), ("measurement_sets", some "M"),
          ("file_modality", some "scRNA"), ("R1_path", some "A1"),
          ("R1_md5sum", some "H1"), ("Flowcell ID", some "F"),
          ("Seqspecs", some "S")]]
        [[("Lane", some "1"), ("measurement_sets", some "M"),
          ("file_modality", some "scRNA"), ("R2_path", some "B1"),
          ("R2_md5sum", some "G1"), ("Flowcell ID", some "F"),
          ("Seqspecs", some "S")]] := by
  exact C4_outer_join_semantics.2.1 _ _ _ _ (by decide) (by decide) (by rfl)

theorem selectRow_shape (cols : List String) :
    ∀ (r r2 : Row), selectRow cols r = Except.ok r2 → r2.map Prod.fst = cols := by
  induction cols with
  | nil =>
    intro r r2 h
    simp only [selectRow] at h
    injection h with h2
    rw [← h2]
    rfl
  | cons c cs ih =>
    intro r r2 h
    simp only [selectRow] at h
    cases hg : getCol r c with
    | none => rw [hg] at h; simp at h
    | some v =>
      cases hs : selectRow cs r with
      | error e => rw [hg, hs] at h; simp at h
      | ok rest =>
        rw [hg, hs] at h
        injection h with h2
        rw [← h2, List.map_cons]
        rw [ih r rest hs]

theorem selectRows_mem (cols : List String) :
    ∀ (t t2 : Table), selectRows cols t = Except.ok t2 →
      ∀ r2 ∈ t2, ∃ r ∈ t, selectRow cols r = Except.ok r2 := by
  intro t
  induction t with
  | nil =>
    intro t2 h r2 hr2
    simp only [selectRows] at h
    injection h with h2
    rw [← h2] at hr2
    cases hr2
  | cons r rest ih =>
    intro t2 h r2 hr2
    simp only [selectRows] at h
    cases h1 : selectRow cols r with
    | error e => rw [h1] at h; simp at h
    | ok rr =>
      cases h2 : selectRows cols rest with
      | error e => rw [h1, h2] at h; simp at h
      | ok tt =>
        rw [h1, h2] at h
        injection h with h3
        rw [← h3] at hr2
        rcases List.mem_cons.mp hr2 with h4 | h4
        · exact ⟨r, List.mem_cons_self r rest, by rw [h4]; exact h1⟩
        · obtain ⟨r0, hr0, hsel⟩ := ih tt h2 r2 h4
          exact ⟨r0, List.mem_cons_of_mem r hr0, hsel⟩

theorem getCol_selectRow (cols : List String) :
    ∀ (r r2 : Row) (c : String), selectRow cols r = Except.ok r2 → c ∈ cols →
      getCol r2 c = getCol r c := by
  induction cols with
  | nil => intro r r2 c _ hc; cases hc
  | cons c0 cs ih =>
    intro r r2 c h hc
    simp only [selectRow] at h
    cases hg : getCol r c0 with
    | none => rw [hg] at h; simp at h
    | some v =>
      cases hs : selectRow cs r with
      | error e => rw [hg, hs] at h; simp at h
      | ok rest =>
        rw [hg, hs] at h
        injection h with h2
        rw [← h2]
        by_cases hcc : c0 = c
        · have hl : getCol ((c0, v) :: rest) c0 = some v := by
            simp [getCol]
          rw [← hcc, hl, hg]
        · have hl : getCol ((c0, v) :: rest) c = getCol rest c := by
            simp [getCol, List.find?_cons, hcc]
          have h3 : c ∈ cs := by
            rcases List.mem_cons.mp hc with h4 | h4
            · exact absurd h4.symm hcc
            · exact h4
          rw [hl, ih r rest c hs h3]

theorem getCol_none_of_shape (r : Row) (cols : List String)
    (h : r.map Prod.fst = cols) (c : String) (hc : c ∉ cols) :
    getCol r c = none := by
  have h2 : r.find? (fun p => p.1 == c) = none := by
    rw [List.find?_eq_none]
    intro p hp hbeq
    rw [beq_iff_eq] at hbeq
    have : p.1 ∈ cols := by
      rw [← h]
      exact List.mem_map_of_mem Prod.fst hp
    rw [hbeq] at this
    exact hc this
  simp [getCol, h2]

theorem readColumn_error_head (c : String) (r : Row) (rest : Table)
    (h : getCol r c = none) :
    readColumn c (r :: rest) = Except.error ("KeyError: " ++ c) := by
  simp only [readColumn, h]

theorem rearrange_ok_decomp (t out : Table)
    (h : rearrange_sequence_files t = Except.ok out) :
    out = [] ∨
    ∃ (tagged : List (Row × Val)) (r1s r2s : Table),
      readColumn "Illumina Read Type" t = Except.ok tagged ∧
      selectRows r1_cols (r1Rows (keptReads tagged)) = Except.ok r1s ∧
      selectRows r2_cols (r2Rows (keptReads tagged)) = Except.ok r2s ∧
      selectRows final_cols
          (List.insertionSort rowLeP ((mergeOuter r1s r2s).map normRow)) =
        Except.ok out := by
  cases t with
  | nil =>
    left
    simp only [rearrange_sequence_files] at h
    injection h with h2
    exact h2.symm
  | cons r0 t0 =>
    right
    simp only [rearrange_sequence_files] at h
    cases h1 : readColumn "Illumina Read Type" (r0 :: t0) with
    | error e => rw [h1] at h; simp at h
    | ok tagged =>
      rw [h1] at h
      have h9 : (match selectRows r1_cols (r1Rows (keptReads tagged)),
            selectRows r2_cols (r2Rows (keptReads tagged)) with
          | Except.ok r1s, Except.ok r2s =>
            selectRows final_cols
              (List.insertionSort rowLeP ((mergeOuter r1s r2s).map normRow))
          | Except.error e, _ => Except.error e
          | Except.ok _, Except.error e => Except.error e) = Except.ok out := h
      cases h2 : selectRows r1_cols (r1Rows (keptReads tagged)) with
      | error e => rw [h2] at h9; simp at h9
      | ok r1s =>
        cases h3 : selectRows r2_cols (r2Rows (keptReads tagged)) with
        | error e => rw [h2, h3] at h9; simp at h9
        | ok r2s =>
          rw [h2, h3] at h9
          exact ⟨tagged, r1s, r2s, rfl, h2, h3, h9⟩

theorem rearrange_ok_shape (t out : Table)
    (h : rearrange_sequence_files t = Except.ok out) :
    ∀ r ∈ out, r.map Prod.fst = final_cols := by
  intro r hr
  rcases rearrange_ok_decomp t out h with h0 | ⟨tagged, r1s, r2s, _, _, _, h4⟩
  · rw [h0] at hr; cases hr
  · obtain ⟨r0, _, hsel⟩ := selectRows_mem final_cols _ out h4 r hr
    exact selectRow_shape final_cols r0 r hsel

/-- C7 (amended): re-applying the Reshaper to its own non-empty pivoted
output does not terminate normally with an empty table; because the output
no longer carries an `Illumina Read Type` column, the re-application raises
the corresponding missing-column error.  Only an empty output would
re-process successfully. -/
theorem C7_reapplication_raises (t out : Table)
    (h : rearrange_sequence_files t = Except.ok out) (hne : out ≠ []) :
    rearrange_sequence_files out = Except.error "KeyError: Illumina Read Type" := by
  cases out with
  | nil => exact absurd rfl hne
  | cons r rest =>
    have hshape := rearrange_ok_shape t (r :: rest) h r (List.mem_cons_self r rest)
    have hnone : getCol r "Illumina Read Type" = none :=
      getCol_none_of_shape r final_cols hshape _ (by decide)
    have hrc := readColumn_error_head "Illumina Read Type" r rest hnone
    simp only [rearrange_sequence_files, hrc]
    rfl

/-- Witness for C7: a Reshaper run on an R2-only row followed by a
re-application of the Reshaper to the resulting output, which raises. -/
theorem C7_witness :
    rearrange_sequence_files
        [[("R1_path", none), ("R1_md5sum", none), ("R2_path", some "FB2"),
          ("R2_md5sum", some "MB2"), ("measurement_sets", some "MS2"),
          ("Lane", some "2"), ("file_modality", some "gRNA"),
          ("Flowcell ID", some "FC2"), ("Seqspecs", some "")]] =
      Except.error "KeyError: Illumina Read Type" := by
  exact C7_reapplication_raises
    [[("Illumina Read Type", some "R2"), ("Accession", some "FB2"),
      ("MD5sum", some "MB2"), ("Lane", some "2"),
      ("measurement_sets", some "MS2"), ("file_modality", some "gRNA"),
      ("Flowcell ID", some "FC2"), ("Seqspecs", some "")]]
    [[("R1_path", none), ("R1_md5sum", none), ("R2_path", some "FB2"),
      ("R2_md5sum", some "MB2"), ("measurement_sets", some "MS2"),
      ("Lane", some "2"), ("file_modality", some "gRNA"),
      ("Flowcell ID", some "FC2"), ("Seqspecs", some "")]]
    (by rfl) (by decide)

/-- Counterexample to C7 as stated: the Reshaper maps the one-row table below
to a non-empty pivoted output, and applying the Reshaper again to that
output raises a missing-column error instead of returning an empty table. -/
theorem C7_cex :
    rearrange_sequence_files
        [[("Illumina Read Type", some "R1"), ("Accession", some "FA1"),
          ("MD5sum", some "MA1"), ("Lane", some "1"),
          ("measurement_sets", some "MS1"), ("file_modality", some "scRNA"),
          ("Flowcell ID", some "FC1"), ("Seqspecs", some "/configuration-files/SS1/")]] =
      Except.ok
        [[("R1_path", some "FA1"), ("R1_md5sum", some "MA1"), ("R2_path", none),
          ("R2_md5sum", none), ("measurement_sets", some "MS1"),
          ("Lane", some "1"), ("file_modality", some "scRNA"),
          ("Flowcell ID", some "FC1"), ("Seqspecs", some "SS1")]] ∧
    rearrange_sequence_files
        [[("R1_path", some "FA1"), ("R1_md5sum", some "MA1"), ("R2_path", none),
          ("R2_md5sum", none), ("measurement_sets", some "MS1"),
          ("Lane", some "1"), ("file_modality", some "scRNA"),
          ("Flowcell ID", some "FC1"), ("Seqspecs", some "SS1")]] =
      Except.error "KeyError: Illumina Read Type" := by
  exact ⟨rfl, rfl⟩

theorem cmpChars_swap : ∀ x y : List Char, cmpChars x y = (cmpChars y x).swap := by
  intro x
  induction x with
  | nil =>
    intro y
    cases y with
    | nil => rfl
    | cons b bs => rfl
  | cons a as ih =>
    intro y
    cases y with
    | nil => rfl
    | cons b bs =>
      by_cases h1 : a.toNat < b.toNat
      · have h2 : ¬ b.toNat < a.toNat := by omega
        simp [cmpChars, h1, h2, Ordering.swap]
      · by_cases h2 : b.toNat < a.toNat
        · simp [cmpChars, h1, h2, Ordering.swap]
        · simp [cmpChars, h1, h2]
          exact ih bs

theorem cmpChars_eq_trans_left :
    ∀ (x y z : List Char) (r : Ordering), cmpChars x y = Ordering.eq →
      cmpChars y z = r → cmpChars x z = r := by
  intro x
  induction x with
  | nil =>
    intro y z r hxy hyz
    cases y with
    | nil => exact hyz
    | cons b bs => simp [cmpChars] at hxy
  | cons a as ih =>
    intro y z r hxy hyz
    cases y with
    | nil => simp [cmpChars] at hxy
    | cons b bs =>
      by_cases h1 : a.toNat < b.toNat
      · simp [cmpChars, h1] at hxy
      · by_cases h2 : b.toNat < a.toNat
        · simp [cmpChars, h1, h2] at hxy
        · have htail : cmpChars as bs = Ordering.eq := by
            simpa [cmpChars, h1, h2] using hxy
          cases z with
          | nil =>
            simp only [cmpChars] at hyz ⊢
            exact hyz
          | cons c cs =>
            by_cases h3 : b.toNat < c.toNat
            · have h5 : a.toNat < c.toNat := by omega
              have hr : Ordering.lt = r := by simpa [cmpChars, h3] using hyz
              rw [← hr]
              simp [cmpChars, h5]
            · by_cases h4 : c.toNat < b.toNat
              · have h5 : c.toNat < a.toNat := by omega
                have h6 : ¬ a.toNat < c.toNat := by omega
                have hr : Ordering.gt = r := by simpa [cmpChars, h3, h4] using hyz
                rw [← hr]
                simp [cmpChars, h5, h6]
              · have htail2 : cmpChars bs cs = r := by
                  simpa [cmpChars, h3, h4] using hyz
                have h5 : ¬ a.toNat < c.toNat := by omega
                have h6 : ¬ c.toNat < a.toNat := by omega
                simp only [cmpChars, h5, h6, if_false]
                exact ih bs cs r htail htail2

theorem cmpChars_eq_trans_right (x y z : List Char) (r : Ordering)
    (hxy : cmpChars x y = r) (hyz : cmpChars y z = Ordering.eq) :
    cmpChars x z = r := by
  have h1 : cmpChars z y = Ordering.eq := by
    rw [cmpChars_swap z y, hyz]
    rfl
  have h2 : cmpChars y x = r.swap := by
    rw [cmpChars_swap y x, hxy]
  have h3 := cmpChars_eq_trans_left z y x r.swap h1 h2
  rw [cmpChars_swap x z, h3, Ordering.swap_swap]

theorem cmpChars_lt_trans :
    ∀ x y z : List Char, cmpChars x y = Ordering.lt →
      cmpChars y z = Ordering.lt → cmpChars x z = Ordering.lt := by
  intro x
  induction x with
  | nil =>
    intro y z hxy hyz
    cases y with
    | nil => exact hyz
    | cons b bs =>
      cases z with
      | nil => simp [cmpChars] at hyz
      | cons c cs => rfl
  | cons a as ih =>
    intro y z hxy hyz
    cases y with
    | nil => simp [cmpChars] at hxy
    | cons b bs =>
      cases z with
      | nil => simp [cmpChars] at hyz
      | cons c cs =>
        by_cases h1 : a.toNat < b.toNat
        · by_cases h3 : b.toNat < c.toNat
          · have h5 : a.toNat < c.toNat := by omega
            simp [cmpChars, h5]
          · by_cases h4 : c.toNat < b.toNat
            · simp [cmpChars, h3, h4] at hyz
            · have h5 : a.toNat < c.toNat := by omega
              simp [cmpChars, h5]
        · by_cases h2 : b.toNat < a.toNat
          · simp [cmpChars, h1, h2] at hxy
          · have htail : cmpChars as bs = Ordering.lt := by
              simpa [cmpChars, h1, h2] using hxy
            by_cases h3 : b.toNat < c.toNat
            · have h5 : a.toNat < c.toNat := by omega
              simp [cmpChars, h5]
            · by_cases h4 : c.toNat < b.toNat
              · simp [cmpChars, h3, h4] at hyz
              · have htail2 : cmpChars bs cs = Ordering.lt := by
                  simpa [cmpChars, h3, h4] using hyz
                have h5 : ¬ a.toNat < c.toNat := by omega
                have h6 : ¬ c.toNat < a.toNat := by omega
                simp only [cmpChars, h5, h6, if_false]
                exact ih bs cs htail htail2

theorem cmpV_swap : ∀ x y : Val, cmpV x y = (cmpV y x).swap := by
  intro x
  cases x with
  | none => intro y; cases y <;> rfl
  | some a =>
    intro y
    cases y with
    | none => rfl
    | some b => exact cmpChars_swap a.data b.data

theorem cmpV_eq_trans_left :
    ∀ (x y z : Val) (r : Ordering), cmpV x y = Ordering.eq →
      cmpV y z = r → cmpV x z = r := by
  intro x y z r hxy hyz
  cases x with
  | none =>
    cases y with
    | none => exact hyz
    | some b => simp [cmpV] at hxy
  | some a =>
    cases y with
    | none => simp [cmpV] at hxy
    | some b =>
      have hab : cmpChars a.data b.data = Ordering.eq := hxy
      cases z with
      | none => exact hyz
      | some c =>
        have hbc : cmpChars b.data c.data = r := hyz
        exact cmpChars_eq_trans_left a.data b.data c.data r hab hbc

theorem cmpV_eq_trans_right (x y z : Val) (r : Ordering)
    (hxy : cmpV x y = r) (hyz : cmpV y z = Ordering.eq) : cmpV x z = r := by
  have h1 : cmpV z y = Ordering.eq := by
    rw [cmpV_swap z y, hyz]
    rfl
  have h2 : cmpV y x = r.swap := by
    rw [cmpV_swap y x, hxy]
  have h3 := cmpV_eq_trans_left z y x r.swap h1 h2
  rw [cmpV_swap x z, h3, Ordering.swap_swap]

theorem cmpV_lt_trans :
    ∀ x y z : Val, cmpV x y = Ordering.lt → cmpV y z = Ordering.lt →
      cmpV x z = Ordering.lt := by
  intro x y z hxy hyz
  cases x with
  | none =>
    cases y with
    | none => simp [cmpV] at hxy
    | some b => simp [cmpV] at hxy
  | some a =>
    cases y with
    | none =>
      cases z with
      | none => simp [cmpV] at hyz
      | some c => simp [cmpV] at hyz
    | some b =>
      cases z with
      | none => rfl
      | some c =>
        exact cmpChars_lt_trans a.data b.data c.data hxy hyz

theorem cmpKey_swap : ∀ x y : List Val, cmpKey x y = (cmpKey y x).swap := by
  intro x
  induction x with
  | nil =>
    intro y
    cases y with
    | nil => rfl
    | cons b bs => rfl
  | cons a as ih =>
    intro y
    cases y with
    | nil => rfl
    | cons b bs =>
      have hba : cmpV b a = (cmpV a b).swap := cmpV_swap b a
      simp only [cmpKey, hba]
      cases hab : cmpV a b with
      | lt => rfl
      | gt => rfl
      | eq =>
        simp only [Ordering.swap]
        exact ih bs

theorem cmpKey_eq_trans_left :
    ∀ (x y z : List Val) (r : Ordering), cmpKey x y = Ordering.eq →
      cmpKey y z = r → cmpKey x z = r := by
  intro x
  induction x with
  | nil =>
    intro y z r hxy hyz
    cases y with
    | nil => exact hyz
    | cons b bs => simp [cmpKey] at hxy
  | cons a as ih =>
    intro y z r hxy hyz
    cases y with
    | nil => simp [cmpKey] at hxy
    | cons b bs =>
      cases hab : cmpV a b with
      | lt => simp [cmpKey, hab] at hxy
      | gt => simp [cmpKey, hab] at hxy
      | eq =>
        have htail : cmpKey as bs = Ordering.eq := by
          simpa [cmpKey, hab] using hxy
        cases z with
        | nil =>
          simp only [cmpKey] at hyz ⊢
          exact hyz
        | cons c cs =>
          cases hbc : cmpV b c with
          | eq =>
            have hac : cmpV a c = Ordering.eq := cmpV_eq_trans_left a b c _ hab hbc
            have htail2 : cmpKey bs cs = r := by simpa [cmpKey, hbc] using hyz
            simp only [cmpKey, hac]
            exact ih bs cs r htail htail2
          | lt =>
            have hac : cmpV a c = Ordering.lt := cmpV_eq_trans_left a b c _ hab hbc
            have hr : Ordering.lt = r := by simpa [cmpKey, hbc] using hyz
            rw [← hr]
            simp [cmpKey, hac]
          | gt =>
            have hac : cmpV a c = Ordering.gt := cmpV_eq_trans_left a b c _ hab hbc
            have hr : Ordering.gt = r := by simpa [cmpKey, hbc] using hyz
            rw [← hr]
            simp [cmpKey, hac]

theorem cmpKey_eq_trans_right (x y z : List Val) (r : Ordering)
    (hxy : cmpKey x y = r) (hyz : cmpKey y z = Ordering.eq) : cmpKey x z = r := by
  have h1 : cmpKey z y = Ordering.eq := by
    rw [cmpKey_swap z y, hyz]
    rfl
  have h2 : cmpKey y x = r.swap := by
    rw [cmpKey_swap y x, hxy]
  have h3 := cmpKey_eq_trans_left z y x r.swap h1 h2
  rw [cmpKey_swap x z, h3, Ordering.swap_swap]

theorem cmpKey_lt_trans :
    ∀ x y z : List Val, cmpKey x y = Ordering.lt → cmpKey y z = Ordering.lt →
      cmpKey x z = Ordering.lt := by
  intro x
  induction x with
  | nil =>
    intro y z hxy hyz
    cases y with
    | nil => exact hyz
    | cons b bs =>
      cases z with
      | nil => simp [cmpKey] at hyz
      | cons c cs => rfl
  | cons a as ih =>
    intro y z hxy hyz
    cases y with
    | nil => simp [cmpKey] at hxy
    | cons b bs =>
      cases z with
      | nil => simp [cmpKey] at hyz
      | cons c cs =>
        cases hab : cmpV a b with
        | gt => simp [cmpKey, hab] at hxy
        | lt =>
          cases hbc : cmpV b c with
          | gt => simp [cmpKey, hbc] at hyz
          | lt =>
            have hac := cmpV_lt_trans a b c hab hbc
            simp [cmpKey, hac]
          | eq =>
            have hac : cmpV a c = Ordering.lt := cmpV_eq_trans_right a b c _ hab hbc
            simp [cmpKey, hac]
        | eq =>
          have htail : cmpKey as bs = Ordering.lt := by
            simpa [cmpKey, hab] using hxy
          cases hbc : cmpV b c with
          | gt => simp [cmpKey, hbc] at hyz
          | lt =>
            have hac : cmpV a c = Ordering.lt := cmpV_eq_trans_left a b c _ hab hbc
            simp [cmpKey, hac]
          | eq =>
            have htail2 : cmpKey bs cs = Ordering.lt := by
              simpa [cmpKey, hbc] using hyz
            have hac : cmpV a c = Ordering.eq := cmpV_eq_trans_left a b c _ hab hbc
            simp only [cmpKey, hac]
            exact ih bs cs htail htail2

theorem rowLe_eq_true_iff (a b : Row) :
    rowLe a b = true ↔ cmpKey (key4 a) (key4 b) ≠ Ordering.gt := by
  unfold rowLe
  cases h : cmpKey (key4 a) (key4 b) <;> simp

theorem rowLe_total : ∀ a b : Row, rowLeP a b ∨ rowLeP b a := by
  intro a b
  unfold rowLeP
  rw [rowLe_eq_true_iff, rowLe_eq_true_iff]
  cases h : cmpKey (key4 a) (key4 b) with
  | lt => left; simp [h]
  | eq => left; simp [h]
  | gt =>
    right
    have h2 : cmpKey (key4 b) (key4 a) = Ordering.lt := by
      rw [cmpKey_swap, h]
      rfl
    simp [h2]

theorem rowLe_trans_thm : ∀ a b c : Row, rowLeP a b → rowLeP b c → rowLeP a c := by
  intro a b c hab hbc
  unfold rowLeP at hab hbc ⊢
  rw [rowLe_eq_true_iff] at hab hbc ⊢
  cases h1 : cmpKey (key4 a) (key4 b) with
  | gt => exact absurd h1 hab
  | lt =>
    cases h2 : cmpKey (key4 b) (key4 c) with
    | gt => exact absurd h2 hbc
    | lt => simp [cmpKey_lt_trans _ _ _ h1 h2]
    | eq => simp [cmpKey_eq_trans_right _ _ _ _ h1 h2]
  | eq =>
    cases h2 : cmpKey (key4 b) (key4 c) with
    | gt => exact absurd h2 hbc
    | lt => simp [cmpKey_eq_trans_left _ _ _ _ h1 h2]
    | eq => simp [cmpKey_eq_trans_left _ _ _ _ h1 h2]

theorem key4_selectRow_final (r r2 : Row) (h : selectRow final_cols r = Except.ok r2) :
    key4 r2 = key4 r := by
  have h1 := getCol_selectRow final_cols r r2 "measurement_sets" h (by decide)
  have h2 := getCol_selectRow final_cols r r2 "Lane" h (by decide)
  have h3 := getCol_selectRow final_cols r r2 "file_modality" h (by decide)
  have h4 := getCol_selectRow final_cols r r2 "Flowcell ID" h (by decide)
  simp [key4, key4cols, getV, h1, h2, h3, h4]

theorem key5_selectRow_final (r r2 : Row) (h : selectRow final_cols r = Except.ok r2) :
    key5 r2 = key5 r := by
  have h1 := getCol_selectRow final_cols r r2 "Lane" h (by decide)
  have h2 := getCol_selectRow final_cols r r2 "measurement_sets" h (by decide)
  have h3 := getCol_selectRow final_cols r r2 "file_modality" h (by decide)
  have h4 := getCol_selectRow final_cols r r2 "Flowcell ID" h (by decide)
  have h5 := getCol_selectRow final_cols r r2 "Seqspecs" h (by decide)
  simp [key5, key5cols, getV, h1, h2, h3, h4, h5]

theorem pairwise_transfer_selectRows {R S : Row → Row → Prop} (cols : List String) :
    ∀ (t t2 : Table), selectRows cols t = Except.ok t2 →
      (∀ a b a2 b2, selectRow cols a = Except.ok a2 → selectRow cols b = Except.ok b2 →
        R a b → S a2 b2) →
      t.Pairwise R → t2.Pairwise S := by
  intro t
  induction t with
  | nil =>
    intro t2 h _ _
    simp only [selectRows] at h
    injection h with h2
    rw [← h2]
    exact List.Pairwise.nil
  | cons r rest ih =>
    intro t2 h hpres hpw
    simp only [selectRows] at h
    cases h1 : selectRow cols r with
    | error e => rw [h1] at h; simp at h
    | ok rr =>
      cases h2 : selectRows cols rest with
      | error e => rw [h1, h2] at h; simp at h
      | ok tt =>
        rw [h1, h2] at h
        injection h with h3
        rw [← h3]
        rw [List.pairwise_cons] at hpw
        rw [List.pairwise_cons]
        constructor
        · intro b2 hb2
          obtain ⟨b, hb, hsb⟩ := selectRows_mem cols rest tt h2 b2 hb2
          exact hpres r b rr b2 h1 hsb (hpw.1 b hb)
        · exact ih tt h2 hpres hpw.2

/-- C8: on a successful run of the Reshaper, every output row carries exactly
the fixed final columns in their fixed order and no others, and the output
rows are sorted ascending by the four-column sort key
(measurement_sets, Lane, file_modality, Flowcell ID), comparing values
lexicographically with NaN last. -/
theorem C8_sort_and_projection (t out : Table) (hne : t ≠ [])
    (h : rearrange_sequence_files t = Except.ok out) :
    (∀ r ∈ out, r.map Prod.fst = final_cols) ∧ out.Pairwise rowLeP := by
  refine ⟨rearrange_ok_shape t out h, ?_⟩
  rcases rearrange_ok_decomp t out h with h0 | ⟨tagged, r1s, r2s, _, _, _, h4⟩
  · rw [h0]; exact List.Pairwise.nil
  · haveI hT : IsTotal Row rowLeP := ⟨rowLe_total⟩
    haveI hR : IsTrans Row rowLeP := ⟨rowLe_trans_thm⟩
    have hsorted : (List.insertionSort rowLeP
        ((mergeOuter r1s r2s).map normRow)).Pairwise rowLeP :=
      List.sorted_insertionSort rowLeP _
    refine pairwise_transfer_selectRows final_cols _ out h4 ?_ hsorted
    intro a b a2 b2 ha hb hab
    have hka := key4_selectRow_final a a2 ha
    have hkb := key4_selectRow_final b b2 hb
    unfold rowLeP at hab ⊢
    unfold rowLe
    rw [hka, hkb]
    exact hab

/-- Witness for C8: a concrete two-row run whose output is sorted by lane
and projected to the final columns. -/
theorem C8_witness :
    (∀ r ∈ ([[("R1_path", some "A1"), ("R1_md5sum", some "H1"), ("R2_path", none),
        ("R2_md5sum", none), ("measurement_sets", some "MS1"),
        ("Lane", some "1"), ("file_modality", some "scRNA"),
        ("Flowcell ID", some "FC1"), ("Seqspecs", some "")],
       [("R1_path", some "A2"), ("R1_md5sum", some "H2"), ("R2_path", none),
        ("R2_md5sum", none), ("measurement_sets", some "MS1"),
        ("Lane", some "2"), ("file_modality", some "scRNA"),
        ("Flowcell ID", some "FC1"), ("Seqspecs", some "")]] : Table),
      r.map Prod.fst = final_cols) ∧
    ([[("R1_path", some "A1"), ("R1_md5sum", some "H1"), ("R2_path", none),
        ("R2_md5sum", none), ("measurement_sets", some "MS1"),
        ("Lane", some "1"), ("file_modality", some "scRNA"),
        ("Flowcell ID", some "FC1"), ("Seqspecs", some "")],
      [("R1_path", some "A2"), ("R1_md5sum", some "H2"), ("R2_path", none),
        ("R2_md5sum", none), ("measurement_sets", some "MS1"),
        ("Lane", some "2"), ("file_modality", some "scRNA"),
        ("Flowcell ID", some "FC1"), ("Seqspecs", some "")]] : Table).Pairwise rowLeP := by
  exact C8_sort_and_projection
    [[("Illumina Read Type", some "R1"), ("Accession", some "A2"),
      ("MD5sum", some "H2"), ("Lane", some "2"),
      ("measurement_sets", some "MS1"), ("file_modality", some "scRNA"),
      ("Flowcell ID", some "FC1"), ("Seqspecs", some "")],
     [("Illumina Read Type", some "R1"), ("Accession", some "A1"),
      ("MD5sum", some "H1"), ("Lane", some "1"),
      ("measurement_sets", some "MS1"), ("file_modality", some "scRNA"),
      ("Flowcell ID", some "FC1"), ("Seqspecs", some "")]]
    _ (by decide) (by rfl)

theorem filter_key_length_le_one (rs : List Row) (l : Row)
    (h2 : rs.Pairwise (fun a b => key5 a ≠ key5 b)) :
    (rs.filter (fun r => decide (key5 r = key5 l))).length ≤ 1 := by
  induction rs with
  | nil => simp
  | cons r rest ih =>
    rw [List.pairwise_cons] at h2
    by_cases hk : key5 r = key5 l
    · have hrest : rest.filter (fun r2 => decide (key5 r2 = key5 l)) = [] := by
        rw [List.filter_eq_nil_iff]
        intro b hb hbeq
        rw [decide_eq_true_eq] at hbeq
        exact h2.1 b hb (hk.trans hbeq.symm)
      simp [List.filter_cons, hk, hrest]
    · simp only [List.filter_cons, decide_eq_true_eq, hk, if_false]
      exact ih h2.2

theorem mergeBlock_key_of_mem (rs : List Row) (l row : Row)
    (h : row ∈ mergeBlock rs l) : key5 row = key5 l := by
  simp only [mergeBlock] at h
  by_cases he : (rs.filter (fun r => decide (key5 r = key5 l))).isEmpty = true
  · rw [he] at h
    simp at h
    rw [h]
    exact key5_mergedRow l nullR2
  · simp only [he, Bool.false_eq_true, if_false] at h
    obtain ⟨r, _, hrow⟩ := List.mem_map.mp h
    rw [← hrow]
    exact key5_mergedRow l _

theorem mergeBlock_pairwise (rs : List Row) (l : Row)
    (h2 : rs.Pairwise (fun a b => key5 a ≠ key5 b)) :
    (mergeBlock rs l).Pairwise (fun a b => key5 a ≠ key5 b) := by
  have hlen := filter_key_length_le_one rs l h2
  cases hms : rs.filter (fun r => decide (key5 r = key5 l)) with
  | nil => simp [mergeBlock, hms]
  | cons x xs =>
    cases xs with
    | nil => simp [mergeBlock, hms]
    | cons y ys =>
      rw [hms] at hlen
      simp at hlen
  
theorem flatMap_mergeBlock_key (ls rs : List Row) (row : Row)
    (h : row ∈ ls.flatMap (mergeBlock rs)) : ∃ l ∈ ls, key5 row = key5 l := by
  obtain ⟨l, hl, hrow⟩ := List.mem_flatMap.mp h
  exact ⟨l, hl, mergeBlock_key_of_mem rs l row hrow⟩

theorem flatMap_mergeBlock_pairwise (ls rs : List Row)
    (h1 : ls.Pairwise (fun a b => key5 a ≠ key5 b))
    (h2 : rs.Pairwise (fun a b => key5 a ≠ key5 b)) :
    (ls.flatMap (mergeBlock rs)).Pairwise (fun a b => key5 a ≠ key5 b) := by
  induction ls with
  | nil => simp
  | cons l ls2 ih =>
    rw [List.pairwise_cons] at h1
    rw [List.flatMap_cons, List.pairwise_append]
    refine ⟨mergeBlock_pairwise rs l h2, ih h1.2, ?_⟩
    intro a ha b hb
    have hka := mergeBlock_key_of_mem rs l a ha
    obtain ⟨l2, hl2, hkb⟩ := flatMap_mergeBlock_key ls2 rs b hb
    rw [hka, hkb]
    exact h1.1 l2 hl2

theorem mergeOuter_pairwise (ls rs : List Row)
    (h1 : ls.Pairwise (fun a b => key5 a ≠ key5 b))
    (h2 : rs.Pairwise (fun a b => key5 a ≠ key5 b)) :
    (mergeOuter ls rs).Pairwise (fun a b => key5 a ≠ key5 b) := by
  unfold mergeOuter
  rw [List.pairwise_append]
  refine ⟨flatMap_mergeBlock_pairwise ls rs h1 h2, ?_, ?_⟩
  · rw [List.pairwise_map]
    have hf := List.Pairwise.filter
      (fun r => !(ls.any (fun l => decide (key5 l = key5 r)))) h2
    refine List.Pairwise.imp ?_ hf
    intro a b hab
    rw [key5_rightOnlyRow, key5_rightOnlyRow]
    exact hab
  · intro a ha b hb
    obtain ⟨l, hl, hka⟩ := flatMap_mergeBlock_key ls rs a ha
    obtain ⟨r, hr, hb2⟩ := List.mem_map.mp hb
    have hrf := List.mem_filter.mp hr
    have hcond : ∀ x ∈ ls, ¬ key5 x = key5 r := by
      have := hrf.2
      simp only [Bool.not_eq_eq_eq_not, Bool.not_true, List.any_eq_false,
        decide_eq_false_iff_not] at this
      intro x hx
      simpa using this x hx
    rw [hka, ← hb2, key5_rightOnlyRow]
    exact hcond l hl

/-- C5 (amended): if the R1 rows have pairwise-distinct composite keys, the
R2 rows likewise, and the Seqspecs normalization does not conflate the keys
of two distinct merged rows, then any two distinct rows of the Reshaper
output have different composite key tuples.  Without these hypotheses the
invariant fails (see the counterexample). -/
theorem C5_key_uniqueness (t : Table) (tagged : List (Row × Val))
    (r1s r2s out : Table)
    (e0 : readColumn "Illumina Read Type" t = Except.ok tagged)
    (e1 : selectRows r1_cols (r1Rows (keptReads tagged)) = Except.ok r1s)
    (e2 : selectRows r2_cols (r2Rows (keptReads tagged)) = Except.ok r2s)
    (h1 : r1s.Pairwise (fun a b => key5 a ≠ key5 b))
    (h2 : r2s.Pairwise (fun a b => key5 a ≠ key5 b))
    (hinj : ∀ a ∈ mergeOuter r1s r2s, ∀ b ∈ mergeOuter r1s r2s,
      key5 (normRow a) = key5 (normRow b) → key5 a = key5 b)
    (h : rearrange_sequence_files t = Except.ok out) :
    out.Pairwise (fun a b => key5 a ≠ key5 b) := by
  rcases rearrange_ok_decomp t out h with h0 | ⟨tagged', r1s', r2s', k1, k2, k3, k4⟩
  · rw [h0]; exact List.Pairwise.nil
  · have ht : tagged' = tagged := by
      have := e0.symm.trans k1
      injection this with h9
      exact h9.symm
    rw [ht] at k2 k3
    have hr1 : r1s' = r1s := by
      have := e1.symm.trans k2
      injection this with h9
      exact h9.symm
    have hr2 : r2s' = r2s := by
      have := e2.symm.trans k3
      injection this with h9
      exact h9.symm
    rw [hr1, hr2] at k4
    have hm := mergeOuter_pairwise r1s r2s h1 h2
    have hm2 : (mergeOuter r1s r2s).Pairwise
        (fun a b => key5 (normRow a) ≠ key5 (normRow b)) :=
      List.Pairwise.imp_of_mem
        (fun ha hb hab heq => hab (hinj _ ha _ hb heq)) hm
    have hm3 : ((mergeOuter r1s r2s).map normRow).Pairwise
        (fun a b => key5 a ≠ key5 b) :=
      List.pairwise_map.mpr hm2
    have hperm := List.perm_insertionSort rowLeP ((mergeOuter r1s r2s).map normRow)
    have hsym : ∀ {x y : Row}, key5 x ≠ key5 y → key5 y ≠ key5 x :=
      fun hxy => fun heq => hxy heq.symm
    have hm4 : (List.insertionSort rowLeP
        ((mergeOuter r1s r2s).map normRow)).Pairwise
        (fun a b => key5 a ≠ key5 b) :=
      (List.Perm.pairwise_iff hsym hperm).mpr hm3
    refine pairwise_transfer_selectRows final_cols _ out k4 ?_ hm4
    intro a b a2 b2 ha hb hab
    rw [key5_selectRow_final a a2 ha, key5_selectRow_final b b2 hb]
    exact hab

/-- Witness for C5: a concrete one-R1 one-R2 run whose single output row
trivially has pairwise-distinct keys, with all hypotheses discharged by
computation. -/
theorem C5_witness :
    ([[("R1_path", some "A1"), ("R1_md5sum", some "H1"), ("R2_path", some "B1"),
      ("R2_md5sum", some "G1"), ("measurement_sets", some "MS1"),
      ("Lane", some "1"), ("file_modality", some "scRNA"),
      ("Flowcell ID", some "FC1"), ("Seqspecs", some "")]] : Table).Pairwise
      (fun a b => key5 a ≠ key5 b) := by
  exact C5_key_uniqueness
    [[("Illumina Read Type", some "R1"), ("Accession", some "A1"),
      ("MD5sum", some "H1"), ("Lane", some "1"),
      ("measurement_sets", some "MS1"), ("file_modality", some "scRNA"),
      ("Flowcell ID", some "FC1"), ("Seqspecs", some "")],
     [("Illumina Read Type", some "R2"), ("Accession", some "B1"),
      ("MD5sum", some "G1"), ("Lane", some "1"),
      ("measurement_sets", some "MS1"), ("file_modality", some "scRNA"),
      ("Flowcell ID", some "FC1"), ("Seqspecs", some "")]]
    _ _ _ _ (by rfl) (by rfl) (by rfl) (by decide) (by decide) (by decide) (by rfl)

/-- Counterexample to C5 as stated: two R1 rows with the same composite key
but different accessions produce two distinct output rows with identical
composite key tuples. -/
theorem C5_cex :
    rearrange_sequence_files
        [[("Illumina Read Type", some "R1"), ("Accession", some "A1"),
          ("MD5sum", some "H1"), ("Lane", some "1"),
          ("measurement_sets", some "MS1"), ("file_modality", some "scRNA"),
          ("Flowcell ID", some "FC1"), ("Seqspecs", some "")],
         [("Illumina Read Type", some "R1"), ("Accession", some "A2"),
          ("MD5sum", some "H2"), ("Lane", some "1"),
          ("measurement_sets", some "MS1"), ("file_modality", some "scRNA"),
          ("Flowcell ID", some "FC1"), ("Seqspecs", some "")]] =
      Except.ok
        [[("R1_path", some "A1"), ("R1_md5sum", some "H1"), ("R2_path", none),
          ("R2_md5sum", none), ("measurement_sets", some "MS1"),
          ("Lane", some "1"), ("file_modality", some "scRNA"),
          ("Flowcell ID", some "FC1"), ("Seqspecs", some "")],
         [("R1_path", some "A2"), ("R1_md5sum", some "H2"), ("R2_path", none),
          ("R2_md5sum", none), ("measurement_sets", some "MS1"),
          ("Lane", some "1"), ("file_modality", some "scRNA"),
          ("Flowcell ID", some "FC1"), ("Seqspecs", some "")]] ∧
    key5 [("R1_path", some "A1"), ("R1_md5sum", some "H1"), ("R2_path", none),
          ("R2_md5sum", none), ("measurement_sets", some "MS1"),
          ("Lane", some "1"), ("file_modality", some "scRNA"),
          ("Flowcell ID", some "FC1"), ("Seqspecs", some "")] =
      key5 [("R1_path", some "A2"), ("R1_md5sum", some "H2"), ("R2_path", none),
          ("R2_md5sum", none), ("measurement_sets", some "MS1"),
          ("Lane", some "1"), ("file_modality", some "scRNA"),
          ("Flowcell ID", some "FC1"), ("Seqspecs", some "")] ∧
    ([("R1_path", some "A1"), ("R1_md5sum", some "H1"), ("R2_path", none),
      ("R2_md5sum", none), ("measurement_sets", some "MS1"),
      ("Lane", some "1"), ("file_modality", some "scRNA"),
      ("Flowcell ID", some "FC1"), ("Seqspecs", some "")] : Row) ≠
      [("R1_path", some "A2"), ("R1_md5sum", some "H2"), ("R2_path", none),
       ("R2_md5sum", none), ("measurement_sets", some "MS1"),
       ("Lane", some "1"), ("file_modality", some "scRNA"),
       ("Flowcell ID", some "FC1"), ("Seqspecs", some "")] := by
  exact ⟨rfl, rfl, by decide⟩
